import Mathlib

/-!
Verification of the focused PDF crawler (`src/pdf_crawler.py`, class
`PDFCrawler`) against its design specification.

The development shallowly embeds the crawler's pure logic:

* a subset of `urllib.parse.urlsplit` sufficient for the `netloc` and path
  components used by `PDFCrawler.is_same_domain` and by the spec's notion of
  "path component";
* the classifier methods `is_pdf_link`, `matches_url_prefix`,
  `is_same_domain`;
* the state of `urllib.robotparser.RobotFileParser` as driven by
  `PDFCrawler.__init__` and `PDFCrawler.is_allowed`;
* the recursive traversal `PDFCrawler.crawl`, as a fuel-indexed function over
  an explicit crawl state (visited set, discovered PDF set) and an external
  world (robots verdicts, HTTP fetch results, URL joining), producing the
  final state and the trace of dispatched HTTP fetches;
* the persistence functions `save_intermediate_results` and `save_results`
  as pure functions from the discovered set to the written file content.

Python sets are modelled as `Finset String`; Python string operations are
modelled on the underlying character lists.
-/

/-! ## URL splitting (subset of urllib.parse.urlsplit)

CPython's `urlsplit` takes the scheme off the front (a leading
`alpha (alphanum | + | - | .)* :`), then, when the remainder starts with
`//`, the network location up to the first `/`, `?` or `#`, then splits the
fragment at the first `#` and the query at the first `?`.  The bracket
validation that raises `ValueError` for malformed IPv6 hosts is out of
scope here (it never fires on the URLs considered); `urlparse` additionally
splits `;parameters` off the last path segment, which none of the claims
touch. -/

/-- Characters allowed in a URL scheme after the first character
(CPython `scheme_chars`). -/
def isSchemeChar (c : Char) : Bool :=
  c.isAlpha || c.isDigit || c == '+' || c == '-' || c == '.'

/-- Split a character list at the first occurrence of `stop`: `some (before,
after)` with the stop character dropped, or `none` when `stop` does not
occur (Python `str.find` / `str.split(stop, 1)`). -/
def splitAtFirst (stop : Char) : List Char → Option (List Char × List Char)
  | [] => none
  | c :: cs =>
    if c = stop then some ([], cs)
    else
      match splitAtFirst stop cs with
      | none => none
      | some (a, b) => some (c :: a, b)

/-- Remove a leading `scheme:` when the text before the first colon is a
nonempty scheme (first character alphabetic, the rest scheme characters);
otherwise return the input unchanged.  Mirrors the scheme handling of
CPython `urlsplit` (the lowercased scheme itself is not needed here). -/
def dropScheme (l : List Char) : List Char :=
  match splitAtFirst ':' l with
  | none => l
  | some ([], _) => l
  | some (c0 :: restChars, after) =>
    if c0.isAlpha && restChars.all isSchemeChar then after else l

/-- Split off the network location: everything up to the first `/`, `?` or
`#`, paired with the remainder starting at that delimiter (CPython
`_splitnetloc`). -/
def splitNetlocChars : List Char → List Char × List Char
  | [] => ([], [])
  | c :: cs =>
    if c = '/' || c = '?' || c = '#' then ([], c :: cs)
    else
      let r := splitNetlocChars cs
      (c :: r.1, r.2)

/-- The characters before the first occurrence of `stop`, or the whole list
(Python `s.split(stop, 1)[0]`). -/
def takeBefore (stop : Char) (l : List Char) : List Char :=
  match splitAtFirst stop l with
  | some (a, _) => a
  | none => l

/-- The `netloc` component of `urllib.parse.urlsplit(url)` (equal to
`urlparse(url).netloc`): present only after a `//` following the scheme. -/
def netlocOf (url : String) : String :=
  match dropScheme url.toList with
  | '/' :: '/' :: tail => String.mk (splitNetlocChars tail).1
  | _ => ""

/-- The `path` component of `urllib.parse.urlsplit(url)`: what remains after
scheme and netloc, with the fragment (first `#`) and then the query (first
`?`) cut off. -/
def pathOf (url : String) : String :=
  let rest := dropScheme url.toList
  let afterNetloc :=
    match rest with
    | '/' :: '/' :: tail => (splitNetlocChars tail).2
    | r => r
  String.mk (takeBefore '?' (takeBefore '#' afterNetloc))

/-! ## The crawler's configuration and classifier methods -/

/-- The immutable per-run configuration of `PDFCrawler.__init__`:
`max_depth`, `url_prefix`, and `domain = urlparse(start_url).netloc`. -/
structure CrawlConfig where
  max_depth : Nat
  url_prefix : String
  domain : String
deriving Repr, DecidableEq

/-- `PDFCrawler.is_same_domain` (src/pdf_crawler.py lines 75-78):
`urlparse(url).netloc == self.domain or not urlparse(url).netloc`
(Python's truthiness of a string: empty means false). -/
def is_same_domain (cfg : CrawlConfig) (url : String) : Bool :=
  netlocOf url == cfg.domain || netlocOf url == ""

/-- Python `str.lower`, modelled per character with the ASCII case mapping
(`Char.toLower`); it agrees with Python on ASCII input, which is all the
crawler's extension test compares against. -/
def strLower (s : String) : String :=
  String.mk (s.toList.map Char.toLower)

/-- `PDFCrawler.is_pdf_link` (src/pdf_crawler.py lines 80-82):
`url.lower().endswith('.pdf')`; `str.endswith` is the suffix test on the
character list. -/
def is_pdf_link (url : String) : Bool :=
  List.isSuffixOf ".pdf".toList (strLower url).toList

/-- `PDFCrawler.matches_url_prefix` (src/pdf_crawler.py lines 84-86):
`url.startswith(self.url_prefix)`, the prefix test on the character list. -/
def matches_url_prefix (cfg : CrawlConfig) (url : String) : Bool :=
  List.isPrefixOf cfg.url_prefix.toList url.toList

/-- Whether `needle` occurs as a contiguous sublist of the second list:
true when `needle` is a prefix of some tail. -/
def listContains (needle : List Char) : List Char → Bool
  | [] => needle.isEmpty
  | c :: cs => List.isPrefixOf needle (c :: cs) || listContains needle cs

/-- Python's `needle in haystack` on strings: substring containment, used
for the `'application/pdf' in response.headers.get('Content-Type', '')`
test (src/pdf_crawler.py line 110). -/
def strContains (haystack needle : String) : Bool :=
  listContains needle.toList haystack.toList

/-! ## RobotsGate: urllib.robotparser as driven by PDFCrawler.__init__

`PDFCrawler.__init__` (src/pdf_crawler.py lines 56-62) builds a
`RobotFileParser`, points it at `<seed>/robots.txt` and calls `read()`
inside `try/except Exception`; a raised exception is logged as a warning and
otherwise ignored, leaving the parser in its freshly-constructed state.
`PDFCrawler.is_allowed` (lines 64-69) then returns
`robots_parser.can_fetch(user_agent, url)`.

CPython's `RobotFileParser.read` opens the robots URL; on `HTTPError` it
sets `disallow_all` for status 401/403, `allow_all` for the other 4xx
statuses, and nothing for 5xx; any other exception (`URLError` for network
failures, a decode error) propagates to the caller.  On success it parses
the body, which sets `last_checked`.  `can_fetch` answers `False` when
`disallow_all`, `True` when `allow_all`, `False` when `last_checked` was
never set, and otherwise consults the parsed entries, here abstracted as a
verdict function. -/

/-- The outcome of the HTTP fetch of `/robots.txt` inside
`RobotFileParser.read`: a parsed body, an `HTTPError` status, or an
exception that propagates out of `read()` (network failure, decode error). -/
inductive RobotsFetchOutcome where
  | ok (verdict : String → String → Bool)
  | httpError (code : Nat)
  | exn
 
/-- The state of `urllib.robotparser.RobotFileParser` that `can_fetch`
consults: the `disallow_all` / `allow_all` short-circuit flags, and the
parsed rule entries (`none` while `last_checked` is unset, i.e. before any
successful parse; `some verdict` afterwards, with the entry matching of
`can_fetch` abstracted into `verdict useragent url`). -/
structure RobotsParserState where
  disallow_all : Bool
  allow_all : Bool
  parsed : Option (String → String → Bool)

/-- A freshly constructed `RobotFileParser`: no flags, nothing parsed. -/
def robotsInit : RobotsParserState := ⟨false, false, none⟩

/-- `RobotFileParser.read` as a state transformer over the fetch outcome;
`Except.error` is the exception propagating to the caller. -/
def robotsRead (p : RobotsParserState) :
    RobotsFetchOutcome → Except Unit RobotsParserState
  | RobotsFetchOutcome.ok verdict => Except.ok { p with parsed := some verdict }
  | RobotsFetchOutcome.httpError code =>
    if code = 401 ∨ code = 403 then Except.ok { p with disallow_all := true }
    else if 400 ≤ code ∧ code < 500 then Except.ok { p with allow_all := true }
    else Except.ok p
  | RobotsFetchOutcome.exn => Except.error ()

/-- `RobotFileParser.can_fetch(useragent, url)`. -/
def can_fetch (p : RobotsParserState) (useragent url : String) : Bool :=
  if p.disallow_all then false
  else if p.allow_all then true
  else
    match p.parsed with
    | none => false
    | some verdict => verdict useragent url

/-- The robots setup of `PDFCrawler.__init__`: `read()` wrapped in
`try/except Exception`, so on an exception the parser keeps its
freshly-constructed state. -/
def initRobots (outcome : RobotsFetchOutcome) : RobotsParserState :=
  match robotsRead robotsInit outcome with
  | Except.ok p => p
  | Except.error _ => robotsInit

/-- `PDFCrawler.is_allowed` (src/pdf_crawler.py lines 64-69):
`self.robots_parser.can_fetch(self.headers['User-Agent'], url)`. -/
def is_allowed (p : RobotsParserState) (useragent url : String) : Bool :=
  can_fetch p useragent url

/-! ## CrawlEngine: PDFCrawler.crawl

The traversal is embedded as a pure function over an explicit state and an
external world.  The world fixes, per URL, the robots verdict that
`is_allowed` returns during the run (the parser is immutable after
`__init__`), the result of `requests.get`, and the resolution
`urllib.parse.urljoin(base, href)` performed by `normalize_url`
(src/pdf_crawler.py lines 71-73); `urljoin`'s internals are irrelevant to
every claim, so it is an oracle.  Fetching a URL either raises (modelled as
`FetchResult.error`; the body of `crawl` runs inside `try/except
Exception`, src/pdf_crawler.py lines 103-155) or yields a status code, a
`Content-Type` header and, for HTML bodies, the sequence of `href`
attributes that BeautifulSoup extracts from its anchor elements.

The recursion is indexed by fuel consumed once per page level.  Running out
of fuel returns the state unchanged with no fetches, exactly what the
`depth > max_depth` guard returns; starting from depth `d` with fuel
`max_depth + 2 - d`, the fuel can reach zero only when the guard would have
fired anyway, so the wrapper `crawl_run` computes precisely the Python
recursion (which terminates because depth grows by one per level and is
bounded).

`time.sleep(1)` and all logging are effect-free for the state and are
dropped; the checkpoint call to `save_intermediate_results` (lines 115-120
and 139-145) writes a file whose content is a function of `pdf_links` only
(modelled separately below) and does not change the crawl state. -/

/-- The result of `requests.get(url)` as `crawl` consumes it: a raised
exception, or a response with status code, `Content-Type` header and the
`href` attributes of the anchors of its body. -/
inductive FetchResult where
  | error
  | response (status : Nat) (contentType : String) (hrefs : List String)

/-- The external world of one run: robots verdicts, HTTP responses and URL
resolution. -/
structure CrawlWorld where
  allowed : String → Bool
  fetch : String → FetchResult
  urljoin : String → String → String

/-- The mutable crawl state: `self.visited_urls` and `self.pdf_links`. -/
structure CrawlState where
  visited_urls : Finset String
  pdf_links : Finset String
deriving DecidableEq

/-- One dispatch of a URL to `requests.get` inside `crawl`, with the depth
of the task that performed it. -/
structure FetchEvent where
  url : String
  depth : Nat
deriving Repr, DecidableEq

/-- The body of the `for link in soup.find_all('a', href=True)` loop of
`PDFCrawler.crawl` (src/pdf_crawler.py lines 129-152), threading the crawl
state left to right; `recurse` is the recursive call
`self.crawl(absolute_url, depth + 1)` of line 152.  Returns the final state
and the fetch events of the loop in order. -/
def crawl_links (w : CrawlWorld) (cfg : CrawlConfig)
    (recurse : String → CrawlState → CrawlState × List FetchEvent)
    (pageUrl : String) :
    List String → CrawlState → CrawlState × List FetchEvent
  | [], st => (st, [])
  | href :: rest, st =>
    let absolute_url := w.urljoin pageUrl href
    if is_pdf_link absolute_url then
      let st' :=
        if cfg.url_prefix = "" ∨ matches_url_prefix cfg absolute_url then
          { st with pdf_links := insert absolute_url st.pdf_links }
        else st
      crawl_links w cfg recurse pageUrl rest st'
    else if is_same_domain cfg absolute_url ∧ absolute_url ∉ st.visited_urls then
      let r := recurse absolute_url st
      let r2 := crawl_links w cfg recurse pageUrl rest r.1
      (r2.1, r.2 ++ r2.2)
    else
      crawl_links w cfg recurse pageUrl rest st

/-- `PDFCrawler.crawl` (src/pdf_crawler.py lines 88-155), fuel-indexed.
Returns the final state and the ordered trace of fetch dispatches. -/
def crawl (w : CrawlWorld) (cfg : CrawlConfig) :
    Nat → String → Nat → CrawlState → CrawlState × List FetchEvent
  | 0, _, _, st => (st, [])
  | fuel + 1, url, depth, st =>
    if depth > cfg.max_depth then (st, [])
    else if url ∈ st.visited_urls then (st, [])
    else if !w.allowed url then (st, [])
    else
      let st1 : CrawlState := { st with visited_urls := insert url st.visited_urls }
      match w.fetch url with
      | FetchResult.error => (st1, [⟨url, depth⟩])
      | FetchResult.response status contentType hrefs =>
        if status ≠ 200 then (st1, [⟨url, depth⟩])
        else if strContains contentType "application/pdf" then
          if cfg.url_prefix = "" ∨ matches_url_prefix cfg url then
            ({ st1 with pdf_links := insert url st1.pdf_links }, [⟨url, depth⟩])
          else (st1, [⟨url, depth⟩])
        else
          let r := crawl_links w cfg
            (fun u s => crawl w cfg fuel u (depth + 1) s) url hrefs st1
          (r.1, ⟨url, depth⟩ :: r.2)

/-- One whole run: `crawler.crawl(start_url)` from the empty state, with
enough fuel that exhaustion coincides with the `depth > max_depth` guard. -/
def crawl_run (w : CrawlWorld) (cfg : CrawlConfig) (start_url : String) :
    CrawlState × List FetchEvent :=
  crawl w cfg (cfg.max_depth + 2) start_url 0 ⟨∅, ∅⟩

/-! ## ResultSink: save_intermediate_results and save_results

Both writers (src/pdf_crawler.py lines 157-168 and 170-192) create the
output directory if absent, open `os.path.join(output_dir,
'pdf_links.txt')` with mode `'w'` (truncating any previous content) and
write `f"{link}\n"` for each `link in sorted(self.pdf_links)`.
`save_results` additionally logs the residual links and totals, which
touches no file.  Python `sorted` on strings is the lexicographic order on
code points, which is the `LinearOrder` on `String`.  Each writer is
modelled as a function from the directory, the set and the previous file
content (if any) to the written path and the file content after the call. -/

/-- `os.path.join(dir, name)` for the fixed relative `name` used here:
`name` when `dir` is empty, no duplicated separator when `dir` already ends
in `/`. -/
def os_path_join (dir name : String) : String :=
  if dir = "" then name
  else if dir.toList.getLast? = some '/' then dir ++ name
  else dir ++ "/" ++ name

/-- The lines written by either saver, in order: the members of
`pdf_links`, sorted lexicographically. -/
def written_links (pdf_links : Finset String) : List String :=
  pdf_links.sort (fun a b => a ≤ b)

/-- `PDFCrawler.save_intermediate_results` (src/pdf_crawler.py lines
157-168): the written path and the file content replacing `old`. -/
def save_intermediate_results (output_dir : String) (pdf_links : Finset String)
    (old : Option String) : String × Option String :=
  (os_path_join output_dir "pdf_links.txt",
   some (String.join ((pdf_links.sort (fun a b => a ≤ b)).map (fun link => link ++ "\n"))))

/-- `PDFCrawler.save_results` (src/pdf_crawler.py lines 170-192): the
written path and the file content replacing `old`; the residual-batch
logging of lines 181-192 writes nothing. -/
def save_results (output_dir : String) (pdf_links : Finset String)
    (old : Option String) : String × Option String :=
  (os_path_join output_dir "pdf_links.txt",
   some (String.join ((pdf_links.sort (fun a b => a ≤ b)).map (fun link => link ++ "\n"))))

/-! ## Invariants of the traversal -/

/-- Relation between a traversal step's input state and its result `(final
state, fetch trace)`: the visited set only grows, every dispatched URL was
unvisited on entry and is visited on exit, and no URL is dispatched twice. -/
def FetchedOnceInv (st : CrawlState) (r : CrawlState × List FetchEvent) : Prop :=
  st.visited_urls ⊆ r.1.visited_urls ∧
  (∀ e ∈ r.2, e.url ∉ st.visited_urls ∧ e.url ∈ r.1.visited_urls) ∧
  (r.2.map FetchEvent.url).Nodup

theorem fetchedOnceInv_refl (st : CrawlState) : FetchedOnceInv st (st, []) :=
  ⟨Finset.Subset.refl _, by simp, by simp⟩

theorem fetchedOnceInv_stay (st st' : CrawlState)
    (h : st'.visited_urls = st.visited_urls) (r : CrawlState × List FetchEvent) :
    FetchedOnceInv st' r → FetchedOnceInv st r := by
  unfold FetchedOnceInv
  rw [h]
  exact id

theorem fetchedOnceInv_single (st st1 : CrawlState) (url : String) (depth : Nat)
    (hnot : url ∉ st.visited_urls)
    (hv : st1.visited_urls = insert url st.visited_urls) :
    FetchedOnceInv st (st1, [⟨url, depth⟩]) := by
  refine ⟨?_, ?_, by simp⟩
  · rw [hv]
    exact Finset.subset_insert _ _
  · intro e he
    rw [List.mem_singleton] at he
    subst he
    exact ⟨hnot, by rw [hv]; exact Finset.mem_insert_self _ _⟩

theorem crawl_links_fetchedOnce (w : CrawlWorld) (cfg : CrawlConfig)
    (recurse : String → CrawlState → CrawlState × List FetchEvent) (page : String)
    (hrec : ∀ u st, FetchedOnceInv st (recurse u st)) :
    ∀ (hrefs : List String) (st : CrawlState),
      FetchedOnceInv st (crawl_links w cfg recurse page hrefs st) := by
  intro hrefs
  induction hrefs with
  | nil =>
    intro st
    simpa only [crawl_links] using fetchedOnceInv_refl st
  | cons href rest ih =>
    intro st
    simp only [crawl_links]
    split
    · split
      · exact fetchedOnceInv_stay st _ rfl _
          (ih { st with pdf_links := insert (w.urljoin page href) st.pdf_links })
      · exact ih st
    · split
      · obtain ⟨hs1, he1, hn1⟩ := hrec (w.urljoin page href) st
        obtain ⟨hs2, he2, hn2⟩ := ih (recurse (w.urljoin page href) st).1
        refine ⟨hs1.trans hs2, ?_, ?_⟩
        · intro e he
          rcases List.mem_append.mp he with h | h
          · exact ⟨(he1 e h).1, hs2 (he1 e h).2⟩
          · exact ⟨fun hmem => (he2 e h).1 (hs1 hmem), (he2 e h).2⟩
        · rw [List.map_append, List.nodup_append]
          refine ⟨hn1, hn2, ?_⟩
          intro a ha1 ha2
          rcases List.mem_map.mp ha1 with ⟨e1, hm1, rfl⟩
          rcases List.mem_map.mp ha2 with ⟨e2, hm2, heq⟩
          exact (he2 e2 hm2).1 (heq ▸ (he1 e1 hm1).2)
      · exact ih st

theorem crawl_fetchedOnce (w : CrawlWorld) (cfg : CrawlConfig) :
    ∀ (fuel : Nat) (url : String) (depth : Nat) (st : CrawlState),
      FetchedOnceInv st (crawl w cfg fuel url depth st) := by
  intro fuel
  induction fuel with
  | zero =>
    intro url depth st
    simpa only [crawl] using fetchedOnceInv_refl st
  | succ f ih =>
    intro url depth st
    simp only [crawl]
    split
    · exact fetchedOnceInv_refl st
    · split
      · exact fetchedOnceInv_refl st
      · next hvis =>
        split
        · exact fetchedOnceInv_refl st
        · split
          · exact fetchedOnceInv_single st _ url depth hvis rfl
          · split
            · exact fetchedOnceInv_single st _ url depth hvis rfl
            · split
              · split
                · exact fetchedOnceInv_single st _ url depth hvis rfl
                · exact fetchedOnceInv_single st _ url depth hvis rfl
              · obtain ⟨hs2, he2, hn2⟩ := crawl_links_fetchedOnce w cfg
                  (fun u s => crawl w cfg f u (depth + 1) s) url
                  (fun u s => ih u (depth + 1) s) _
                  { st with visited_urls := insert url st.visited_urls }
                refine ⟨(Finset.subset_insert _ _).trans hs2, ?_, ?_⟩
                · intro e he
                  rcases List.mem_cons.mp he with rfl | hmem
                  · exact ⟨hvis, hs2 (Finset.mem_insert_self url st.visited_urls)⟩
                  · refine ⟨fun habs => (he2 e hmem).1 (Finset.mem_insert_of_mem habs), (he2 e hmem).2⟩
                · rw [List.map_cons]
                  refine List.nodup_cons.mpr ⟨?_, hn2⟩
                  intro habs
                  rcases List.mem_map.mp habs with ⟨e, hmem, heq⟩
                  exact (he2 e hmem).1 (heq ▸ Finset.mem_insert_self url st.visited_urls)

/-- All fetch dispatches of a result stay within the configured depth
bound. -/
def DepthCapped (cfg : CrawlConfig) (r : CrawlState × List FetchEvent) : Prop :=
  ∀ e ∈ r.2, e.depth ≤ cfg.max_depth

theorem crawl_links_depthCapped (w : CrawlWorld) (cfg : CrawlConfig)
    (recurse : String → CrawlState → CrawlState × List FetchEvent) (page : String)
    (hrec : ∀ u st, DepthCapped cfg (recurse u st)) :
    ∀ (hrefs : List String) (st : CrawlState),
      DepthCapped cfg (crawl_links w cfg recurse page hrefs st) := by
  intro hrefs
  induction hrefs with
  | nil =>
    intro st e he
    simp only [crawl_links] at he
    simp at he
  | cons href rest ih =>
    intro st
    simp only [crawl_links]
    split
    · split
      · exact ih _
      · exact ih st
    · split
      · intro e he
        rcases List.mem_append.mp he with h | h
        · exact hrec (w.urljoin page href) st e h
        · exact ih _ e h
      · exact ih st

theorem crawl_depthCapped (w : CrawlWorld) (cfg : CrawlConfig) :
    ∀ (fuel : Nat) (url : String) (depth : Nat) (st : CrawlState),
      DepthCapped cfg (crawl w cfg fuel url depth st) := by
  intro fuel
  induction fuel with
  | zero =>
    intro url depth st e he
    simp only [crawl] at he
    simp at he
  | succ f ih =>
    intro url depth st
    simp only [crawl]
    split
    · intro e he
      simp at he
    · next hdepth =>
      have hle : depth ≤ cfg.max_depth := Nat.le_of_not_lt hdepth
      split
      · intro e he
        simp at he
      · split
        · intro e he
          simp at he
        · split
          · intro e he
            rw [List.mem_singleton] at he
            subst he
            exact hle
          · split
            · intro e he
              rw [List.mem_singleton] at he
              subst he
              exact hle
            · split
              · split
                · intro e he
                  rw [List.mem_singleton] at he
                  subst he
                  exact hle
                · intro e he
                  rw [List.mem_singleton] at he
                  subst he
                  exact hle
              · intro e he
                rcases List.mem_cons.mp he with rfl | hmem
                · exact hle
                · exact crawl_links_depthCapped w cfg
                    (fun u s => crawl w cfg f u (depth + 1) s) url
                    (fun u s => ih u (depth + 1) s) _
                    { st with visited_urls := insert url st.visited_urls } e hmem

/-- The fetch of `u` answered 200 with a `Content-Type` containing
`application/pdf`: the condition under which the response branch of `crawl`
records `u` itself (src/pdf_crawler.py lines 105-112). -/
def fetched_as_pdf (w : CrawlWorld) (u : String) : Prop :=
  match w.fetch u with
  | FetchResult.error => False
  | FetchResult.response status contentType _ =>
    status = 200 ∧ strContains contentType "application/pdf" = true

/-- A URL the crawler may record into `pdf_links`: it passes the prefix test
(vacuous for an empty configured prefix) and either carries the `.pdf`
extension or was itself fetched with a PDF content type. -/
def doc_recordable (w : CrawlWorld) (cfg : CrawlConfig) (u : String) : Prop :=
  (cfg.url_prefix = "" ∨ matches_url_prefix cfg u = true) ∧
  (is_pdf_link u = true ∨ fetched_as_pdf w u)

/-- Every member of the final `pdf_links` was already present or is
recordable. -/
def PdfSubsetInv (w : CrawlWorld) (cfg : CrawlConfig) (st : CrawlState)
    (r : CrawlState × List FetchEvent) : Prop :=
  ∀ u ∈ r.1.pdf_links, u ∈ st.pdf_links ∨ doc_recordable w cfg u

theorem pdfSubsetInv_refl (w : CrawlWorld) (cfg : CrawlConfig) (st st1 : CrawlState)
    (h : st1.pdf_links = st.pdf_links) (tr : List FetchEvent) :
    PdfSubsetInv w cfg st (st1, tr) := by
  intro u hu
  rw [h] at hu
  exact Or.inl hu

theorem crawl_links_pdfSubset (w : CrawlWorld) (cfg : CrawlConfig)
    (recurse : String → CrawlState → CrawlState × List FetchEvent) (page : String)
    (hrec : ∀ u st, PdfSubsetInv w cfg st (recurse u st)) :
    ∀ (hrefs : List String) (st : CrawlState),
      PdfSubsetInv w cfg st (crawl_links w cfg recurse page hrefs st) := by
  intro hrefs
  induction hrefs with
  | nil =>
    intro st
    simp only [crawl_links]
    intro u hu
    exact Or.inl hu
  | cons href rest ih =>
    intro st
    simp only [crawl_links]
    split
    · next hpdf =>
      split
      · next hpre =>
        intro u hu
        rcases ih { st with pdf_links := insert (w.urljoin page href) st.pdf_links } u hu with h | h
        · rcases Finset.mem_insert.mp h with rfl | h'
          · exact Or.inr ⟨hpre, Or.inl hpdf⟩
          · exact Or.inl h'
        · exact Or.inr h
      · exact ih st
    · split
      · intro u hu
        rcases ih (recurse (w.urljoin page href) st).1 u hu with h | h
        · exact hrec (w.urljoin page href) st u h
        · exact Or.inr h
      · exact ih st

theorem crawl_pdfSubset (w : CrawlWorld) (cfg : CrawlConfig) :
    ∀ (fuel : Nat) (url : String) (depth : Nat) (st : CrawlState),
      PdfSubsetInv w cfg st (crawl w cfg fuel url depth st) := by
  intro fuel
  induction fuel with
  | zero =>
    intro url depth st
    simp only [crawl]
    intro u hu
    exact Or.inl hu
  | succ f ih =>
    intro url depth st
    simp only [crawl]
    split
    · intro u hu
      exact Or.inl hu
    · split
      · intro u hu
        exact Or.inl hu
      · split
        · intro u hu
          exact Or.inl hu
        · split
          · next heq =>
            exact pdfSubsetInv_refl w cfg st
              { st with visited_urls := insert url st.visited_urls } rfl [⟨url, depth⟩]
          · next status contentType hrefs heq =>
            split
            · exact pdfSubsetInv_refl w cfg st
                { st with visited_urls := insert url st.visited_urls } rfl [⟨url, depth⟩]
            · next hstatus =>
              split
              · next hctype =>
                split
                · next hpre =>
                  intro u hu
                  rcases Finset.mem_insert.mp hu with rfl | h'
                  · refine Or.inr ⟨hpre, Or.inr ?_⟩
                    unfold fetched_as_pdf
                    rw [heq]
                    exact ⟨not_ne_iff.mp hstatus, hctype⟩
                  · exact Or.inl h'
                · exact pdfSubsetInv_refl w cfg st
                    { st with visited_urls := insert url st.visited_urls } rfl [⟨url, depth⟩]
              · intro u hu
                rcases crawl_links_pdfSubset w cfg
                    (fun v s => crawl w cfg f v (depth + 1) s) url
                    (fun v s => ih v (depth + 1) s) hrefs
                    { st with visited_urls := insert url st.visited_urls } u hu with h | h
                · exact Or.inl h
                · exact Or.inr h

/-! ## Concrete scenario worlds used to instantiate the claims -/

/-- A run in which fetching `http://h/doc` yields a 200 response with a PDF
content type and no configured prefix filter. -/
def wPdfServed : CrawlWorld where
  allowed := fun _ => true
  fetch := fun u =>
    if u == "http://h/doc" then FetchResult.response 200 "application/pdf" []
    else FetchResult.error
  urljoin := fun _ href => href

def cfgNoFilter : CrawlConfig := ⟨1, "", "h"⟩

/-- A run in which robots denies `http://h/x` and every fetch would be a
plain empty page. -/
def wDenied : CrawlWorld where
  allowed := fun u => !(u == "http://h/x")
  fetch := fun _ => FetchResult.response 200 "text/html" []
  urljoin := fun _ href => href

def cfgPlain : CrawlConfig := ⟨5, "", "h"⟩

/-- A run in which the seed page links to a same-domain `.pdf` URL that
fails the configured prefix filter. -/
def wOffFilterPdf : CrawlWorld where
  allowed := fun _ => true
  fetch := fun u =>
    if u == "http://h/" then FetchResult.response 200 "text/html" ["http://h/a.pdf"]
    else FetchResult.response 200 "text/html" []
  urljoin := fun _ href => href

def cfgDocsFilter : CrawlConfig := ⟨5, "http://h/d/", "h"⟩

/-- A run in which fetching `http://h/bad` raises and its sibling
`http://h/good` is an ordinary page. -/
def wBadEdge : CrawlWorld where
  allowed := fun _ => true
  fetch := fun u =>
    if u == "http://h/bad" then FetchResult.error
    else FetchResult.response 200 "text/html" []
  urljoin := fun _ href => href

/-! ## The claims -/

/-- C1.  The claim reads: if the robots.txt resource cannot be fetched or
parsed at startup, `is_allowed` returns true for every URL.  The code does
the opposite on the fetch failures that raise out of
`RobotFileParser.read` (network errors, parse/decode errors): the
exception is caught in `__init__`, the parser keeps its freshly-constructed
state, and `can_fetch` then answers false for every URL (its
`last_checked` guard), so the whole crawl is blocked — exactly what the
spec says must not happen.  This theorem evaluates the embedded code at
that failing outcome. -/
theorem c1_robots_failure_denies_all :
    ∀ useragent url : String,
      is_allowed (initRobots RobotsFetchOutcome.exn) useragent url = false := by
  intro useragent url
  rfl

/-- C2.  A URL already in `visited_urls` terminates its branch with no
fetch and no state change; in any traversal the dispatched URLs are
pairwise distinct (each URL is fetched at most once), and every dispatched
URL is in `visited_urls` afterwards. -/
theorem c2_fetch_at_most_once (w : CrawlWorld) (cfg : CrawlConfig)
    (fuel : Nat) (url : String) (depth : Nat) (st : CrawlState) :
    (url ∈ st.visited_urls → crawl w cfg fuel url depth st = (st, [])) ∧
    ((crawl w cfg fuel url depth st).2.map FetchEvent.url).Nodup ∧
    (∀ e ∈ (crawl w cfg fuel url depth st).2,
      e.url ∈ (crawl w cfg fuel url depth st).1.visited_urls) := by
  refine ⟨?_, (crawl_fetchedOnce w cfg fuel url depth st).2.2,
    fun e he => ((crawl_fetchedOnce w cfg fuel url depth st).2.1 e he).2⟩
  intro hmem
  cases fuel with
  | zero => rfl
  | succ f => simp [crawl, hmem]

/-- C2 witness: in the bad-edge world, a task for a URL already visited
returns at once, and the seed run dispatches each URL exactly once. -/
theorem c2_fetch_at_most_once_witness :
    crawl wBadEdge cfgPlain 7 "http://h/good" 0 ⟨{"http://h/good"}, ∅⟩ =
      ((⟨{"http://h/good"}, ∅⟩ : CrawlState), []) ∧
    ((crawl wBadEdge cfgPlain 7 "http://h/good" 0 ⟨{"http://h/good"}, ∅⟩).2.map
      FetchEvent.url).Nodup :=
  ⟨(c2_fetch_at_most_once wBadEdge cfgPlain 7 "http://h/good" 0
      ⟨{"http://h/good"}, ∅⟩).1 (by decide),
   (c2_fetch_at_most_once wBadEdge cfgPlain 7 "http://h/good" 0
      ⟨{"http://h/good"}, ∅⟩).2.1⟩

/-- C3.  A task whose depth exceeds `max_depth` terminates immediately with
no fetch and no state change, and every fetch dispatched anywhere in a
traversal happens at depth at most `max_depth` (children are spawned at
exactly `depth + 1`, so URLs reachable only through longer paths are never
fetched). -/
theorem c3_depth_bound (w : CrawlWorld) (cfg : CrawlConfig)
    (fuel : Nat) (url : String) (depth : Nat) (st : CrawlState) :
    (cfg.max_depth < depth → crawl w cfg fuel url depth st = (st, [])) ∧
    (∀ e ∈ (crawl w cfg fuel url depth st).2, e.depth ≤ cfg.max_depth) := by
  refine ⟨?_, crawl_depthCapped w cfg fuel url depth st⟩
  intro hgt
  cases fuel with
  | zero => rfl
  | succ f => simp [crawl, hgt]

/-- C3 witness: a task at depth 6 against the bound 5 does nothing, and the
one fetch of a concrete seed run is within the bound. -/
theorem c3_depth_bound_witness :
    crawl wBadEdge cfgPlain 1 "http://h/deep" 6 ⟨∅, ∅⟩ = ((⟨∅, ∅⟩ : CrawlState), []) ∧
    (⟨"http://h/good", 0⟩ : FetchEvent).depth ≤ cfgPlain.max_depth :=
  ⟨(c3_depth_bound wBadEdge cfgPlain 1 "http://h/deep" 6 ⟨∅, ∅⟩).1 (by decide),
   (c3_depth_bound wBadEdge cfgPlain 7 "http://h/good" 0 ⟨∅, ∅⟩).2
     ⟨"http://h/good", 0⟩ (by decide)⟩

/-- C4 counterexample: with no prefix configured, fetching `http://h/doc`
(no `.pdf` extension) with content type `application/pdf` records it, so
`pdf_links` acquires a member that fails the `is_pdf_link` extension test,
refuting `discoveredDocuments ⊆ {u : isDocumentLink(u) ∧ matchesPrefix(u,
prefix)}` as stated. -/
theorem c4_counterexample :
    "http://h/doc" ∈ (crawl_run wPdfServed cfgNoFilter "http://h/doc").1.pdf_links ∧
    is_pdf_link "http://h/doc" = false :=
  ⟨by decide, rfl⟩

/-- C4 amended: every URL in the final `pdf_links` either was already
recorded on entry or passes the prefix test (vacuous when the configured
prefix is empty) and is either a `.pdf`-extension link or was itself
fetched with status 200 and a `Content-Type` containing `application/pdf`.
The extension test alone is not an invariant: the content-type branch of
`crawl` records URLs without the extension. -/
theorem c4_discovered_docs_invariant (w : CrawlWorld) (cfg : CrawlConfig)
    (fuel : Nat) (url : String) (depth : Nat) (st : CrawlState) (u : String)
    (hu : u ∈ (crawl w cfg fuel url depth st).1.pdf_links) :
    u ∈ st.pdf_links ∨
      ((cfg.url_prefix = "" ∨ matches_url_prefix cfg u = true) ∧
       (is_pdf_link u = true ∨ fetched_as_pdf w u)) :=
  crawl_pdfSubset w cfg fuel url depth st u hu

/-- C4 witness: the amended invariant applied to the concrete
content-type-recorded URL of the counterexample run. -/
theorem c4_discovered_docs_invariant_witness :
    "http://h/doc" ∈ (⟨∅, ∅⟩ : CrawlState).pdf_links ∨
      ((cfgNoFilter.url_prefix = "" ∨ matches_url_prefix cfgNoFilter "http://h/doc" = true) ∧
       (is_pdf_link "http://h/doc" = true ∨ fetched_as_pdf wPdfServed "http://h/doc")) :=
  c4_discovered_docs_invariant wPdfServed cfgNoFilter 3 "http://h/doc" 0 ⟨∅, ∅⟩
    "http://h/doc" (by decide)

/-- C5 counterexample: robots denies `http://h/x`; the task for it returns
with the state unchanged and no fetch, so the denied URL is not a member of
`visited_urls` afterwards, refuting the claim that it is added before the
policy check. -/
theorem c5_counterexample :
    wDenied.allowed "http://h/x" = false ∧
    crawl wDenied cfgPlain 7 "http://h/x" 0 ⟨∅, ∅⟩ = ((⟨∅, ∅⟩ : CrawlState), []) ∧
    "http://h/x" ∉ (crawl wDenied cfgPlain 7 "http://h/x" 0 ⟨∅, ∅⟩).1.visited_urls :=
  ⟨rfl, rfl, by decide⟩

/-- C5 amended: `crawl` checks the robots policy before marking the URL
visited: a denied URL terminates its branch with the state unchanged (so it
is re-examined, and re-denied, when discovered from another parent), while
a URL that passes the depth, dedup and policy checks is in `visited_urls`
afterwards (it is marked before the fetch is dispatched). -/
theorem c5_visited_after_policy (w : CrawlWorld) (cfg : CrawlConfig)
    (fuel : Nat) (url : String) (depth : Nat) (st : CrawlState) :
    (w.allowed url = false → crawl w cfg fuel url depth st = (st, [])) ∧
    (¬ depth > cfg.max_depth → url ∉ st.visited_urls → w.allowed url = true →
      url ∈ (crawl w cfg (fuel + 1) url depth st).1.visited_urls) := by
  constructor
  · intro hdeny
    cases fuel with
    | zero => rfl
    | succ f => simp [crawl, hdeny]
  · intro hdepth hnew hallow
    simp only [crawl]
    rw [if_neg hdepth, if_neg hnew, if_neg (by simp [hallow])]
    split
    · exact Finset.mem_insert_self url st.visited_urls
    · split
      · exact Finset.mem_insert_self url st.visited_urls
      · split
        · split
          · exact Finset.mem_insert_self url st.visited_urls
          · exact Finset.mem_insert_self url st.visited_urls
        · exact (crawl_links_fetchedOnce w cfg
            (fun u s => crawl w cfg fuel u (depth + 1) s) url
            (fun u s => crawl_fetchedOnce w cfg fuel u (depth + 1) s) _
            { st with visited_urls := insert url st.visited_urls }).1
            (Finset.mem_insert_self url st.visited_urls)

/-- C5 witness: concrete runs of the amended statement — the denied URL
leaves the state unchanged, an allowed fresh URL is visited afterwards. -/
theorem c5_visited_after_policy_witness :
    crawl wDenied cfgPlain 7 "http://h/x" 0 ⟨∅, ∅⟩ = ((⟨∅, ∅⟩ : CrawlState), []) ∧
    "http://h/y" ∈ (crawl wDenied cfgPlain (7 + 1) "http://h/y" 0 ⟨∅, ∅⟩).1.visited_urls :=
  ⟨(c5_visited_after_policy wDenied cfgPlain 7 "http://h/x" 0 ⟨∅, ∅⟩).1 rfl,
   (c5_visited_after_policy wDenied cfgPlain 7 "http://h/y" 0 ⟨∅, ∅⟩).2
     (by decide) (by decide) rfl⟩

/-- C6 counterexample: against the prefix `http://h/d/`, the seed page of
`wOffFilterPdf` links to the same-domain document `http://h/a.pdf` that
fails the prefix.  The claim says the second rule applies to every URL
failing the record condition, so this link should be recursed into as a
task at depth 1 and fetched; the code instead takes the document branch,
skips it entirely, and the run neither visits, fetches nor records it. -/
theorem c6_counterexample :
    is_pdf_link "http://h/a.pdf" = true ∧
    is_same_domain cfgDocsFilter "http://h/a.pdf" = true ∧
    matches_url_prefix cfgDocsFilter "http://h/a.pdf" = false ∧
    wOffFilterPdf.allowed "http://h/a.pdf" = true ∧
    "http://h/a.pdf" ∉ (crawl_run wOffFilterPdf cfgDocsFilter "http://h/").1.visited_urls ∧
    (crawl_run wOffFilterPdf cfgDocsFilter "http://h/").2 = [⟨"http://h/", 0⟩] ∧
    "http://h/a.pdf" ∉ (crawl_run wOffFilterPdf cfgDocsFilter "http://h/").1.pdf_links :=
  ⟨rfl, rfl, rfl, rfl, by decide, rfl, by decide⟩

/-- C6 amended: for each extracted link, the normalized URL is first tested
with `is_pdf_link`; a document link is recorded exactly when it passes the
prefix test and is never recursed into (the loop continues with the
remaining links either way); only a non-document link that is same-domain
and unvisited is recursed into as a new task at `depth + 1`. -/
theorem c6_link_dispatch (w : CrawlWorld) (cfg : CrawlConfig)
    (fuel : Nat) (page : String) (depth : Nat) (href : String)
    (rest : List String) (st : CrawlState) :
    (is_pdf_link (w.urljoin page href) = true →
      crawl_links w cfg (fun u s => crawl w cfg fuel u (depth + 1) s) page (href :: rest) st =
        crawl_links w cfg (fun u s => crawl w cfg fuel u (depth + 1) s) page rest
          (if cfg.url_prefix = "" ∨ matches_url_prefix cfg (w.urljoin page href) = true then
            { st with pdf_links := insert (w.urljoin page href) st.pdf_links }
          else st)) ∧
    (is_pdf_link (w.urljoin page href) = false →
      is_same_domain cfg (w.urljoin page href) = true →
      w.urljoin page href ∉ st.visited_urls →
      crawl_links w cfg (fun u s => crawl w cfg fuel u (depth + 1) s) page (href :: rest) st =
        ((crawl_links w cfg (fun u s => crawl w cfg fuel u (depth + 1) s) page rest
            (crawl w cfg fuel (w.urljoin page href) (depth + 1) st).1).1,
         (crawl w cfg fuel (w.urljoin page href) (depth + 1) st).2 ++
           (crawl_links w cfg (fun u s => crawl w cfg fuel u (depth + 1) s) page rest
             (crawl w cfg fuel (w.urljoin page href) (depth + 1) st).1).2)) := by
  constructor
  · intro hpdf
    simp only [crawl_links]
    rw [if_pos hpdf]
  · intro hpdf hdom hnew
    simp only [crawl_links]
    rw [if_neg (by simp [hpdf]), if_pos ⟨hdom, hnew⟩]

/-- C6 witness: both branches of the amended statement at concrete inputs —
a prefix-failing document link is neither recorded nor recursed, a
non-document same-domain link is recursed at depth 1. -/
theorem c6_link_dispatch_witness :
    (crawl_links wOffFilterPdf cfgDocsFilter
        (fun u s => crawl wOffFilterPdf cfgDocsFilter 5 u (0 + 1) s)
        "http://h/" ["http://h/a.pdf"] ⟨∅, ∅⟩ =
      crawl_links wOffFilterPdf cfgDocsFilter
        (fun u s => crawl wOffFilterPdf cfgDocsFilter 5 u (0 + 1) s) "http://h/" []
        (if cfgDocsFilter.url_prefix = "" ∨
            matches_url_prefix cfgDocsFilter
              (wOffFilterPdf.urljoin "http://h/" "http://h/a.pdf") = true then
          { (⟨∅, ∅⟩ : CrawlState) with
              pdf_links := insert (wOffFilterPdf.urljoin "http://h/" "http://h/a.pdf")
                (⟨∅, ∅⟩ : CrawlState).pdf_links }
        else ⟨∅, ∅⟩)) ∧
    (crawl_links wBadEdge cfgPlain (fun u s => crawl wBadEdge cfgPlain 6 u (0 + 1) s)
        "http://h/" ["http://h/bad", "http://h/good"] ⟨∅, ∅⟩ =
      ((crawl_links wBadEdge cfgPlain (fun u s => crawl wBadEdge cfgPlain 6 u (0 + 1) s)
          "http://h/" ["http://h/good"]
          (crawl wBadEdge cfgPlain 6 (wBadEdge.urljoin "http://h/" "http://h/bad")
            (0 + 1) ⟨∅, ∅⟩).1).1,
       (crawl wBadEdge cfgPlain 6 (wBadEdge.urljoin "http://h/" "http://h/bad")
          (0 + 1) ⟨∅, ∅⟩).2 ++
         (crawl_links wBadEdge cfgPlain (fun u s => crawl wBadEdge cfgPlain 6 u (0 + 1) s)
           "http://h/" ["http://h/good"]
           (crawl wBadEdge cfgPlain 6 (wBadEdge.urljoin "http://h/" "http://h/bad")
             (0 + 1) ⟨∅, ∅⟩).1).2)) :=
  ⟨(c6_link_dispatch wOffFilterPdf cfgDocsFilter 5 "http://h/" 0 "http://h/a.pdf"
      [] ⟨∅, ∅⟩).1 rfl,
   (c6_link_dispatch wBadEdge cfgPlain 6 "http://h/" 0 "http://h/bad"
      ["http://h/good"] ⟨∅, ∅⟩).2 rfl rfl (by decide)⟩

/-- C7 counterexample: for `http://h/a.pdf?q=1` the path component is
`/a.pdf`, which ends with `.pdf` case-insensitively, yet `is_pdf_link`
answers false because the code tests the entire URL string (which ends in
`?q=1`), refuting the claimed equivalence with the path-component test. -/
theorem c7_counterexample :
    pathOf "http://h/a.pdf?q=1" = "/a.pdf" ∧
    List.isSuffixOf ".pdf".toList (strLower (pathOf "http://h/a.pdf?q=1")).toList = true ∧
    is_pdf_link "http://h/a.pdf?q=1" = false :=
  ⟨rfl, rfl, rfl⟩

/-- C7 amended: `is_pdf_link url` is true exactly when the lowercased whole
URL string — query and fragment included, not the path component — ends
with `.pdf`. -/
theorem c7_extension_test (url : String) :
    is_pdf_link url = true ↔
      ∃ pre : List Char, (strLower url).toList = pre ++ ".pdf".toList := by
  unfold is_pdf_link
  rw [List.isSuffixOf_iff_suffix]
  constructor
  · rintro ⟨pre, hpre⟩
    exact ⟨pre, hpre.symm⟩
  · rintro ⟨pre, hpre⟩
    exact ⟨pre, hpre.symm⟩

/-- C8.  A fetch that raises terminates only its own branch: the child task
for the erroring URL returns normally with just that URL marked visited and
its single dispatch recorded, and the parent's loop goes on to process the
remaining sibling links from that state — no per-URL error aborts the
siblings or the run. -/
theorem c8_fetch_error_isolated (w : CrawlWorld) (cfg : CrawlConfig)
    (fuel : Nat) (page : String) (depth : Nat) (href : String)
    (rest : List String) (st : CrawlState)
    (herr : w.fetch (w.urljoin page href) = FetchResult.error)
    (hpdf : is_pdf_link (w.urljoin page href) = false)
    (hdom : is_same_domain cfg (w.urljoin page href) = true)
    (hnew : w.urljoin page href ∉ st.visited_urls)
    (hdepth : ¬ depth + 1 > cfg.max_depth)
    (hallow : w.allowed (w.urljoin page href) = true) :
    crawl w cfg (fuel + 1) (w.urljoin page href) (depth + 1) st =
      ({ st with visited_urls := insert (w.urljoin page href) st.visited_urls },
       [⟨w.urljoin page href, depth + 1⟩]) ∧
    crawl_links w cfg (fun u s => crawl w cfg (fuel + 1) u (depth + 1) s) page
        (href :: rest) st =
      ((crawl_links w cfg (fun u s => crawl w cfg (fuel + 1) u (depth + 1) s) page rest
          { st with visited_urls := insert (w.urljoin page href) st.visited_urls }).1,
       ⟨w.urljoin page href, depth + 1⟩ ::
         (crawl_links w cfg (fun u s => crawl w cfg (fuel + 1) u (depth + 1) s) page rest
           { st with visited_urls := insert (w.urljoin page href) st.visited_urls }).2) := by
  have hchild : crawl w cfg (fuel + 1) (w.urljoin page href) (depth + 1) st =
      ({ st with visited_urls := insert (w.urljoin page href) st.visited_urls },
       [⟨w.urljoin page href, depth + 1⟩]) := by
    simp only [crawl]
    rw [if_neg hdepth, if_neg hnew, if_neg (by simp [hallow]), herr]
  refine ⟨hchild, ?_⟩
  simp only [crawl_links]
  rw [if_neg (by simp [hpdf]), if_pos ⟨hdom, hnew⟩, hchild]
  rfl

/-- C8 witness: in the bad-edge world the child fetch of `http://h/bad`
raises, the child returns normally, and the sibling `http://h/good` is
still processed. -/
theorem c8_fetch_error_isolated_witness :
    crawl wBadEdge cfgPlain 6 "http://h/bad" 1 ⟨∅, ∅⟩ =
      ({ (⟨∅, ∅⟩ : CrawlState) with
          visited_urls := insert "http://h/bad" (⟨∅, ∅⟩ : CrawlState).visited_urls },
       [⟨"http://h/bad", 1⟩]) ∧
    crawl_links wBadEdge cfgPlain (fun u s => crawl wBadEdge cfgPlain 6 u 1 s)
        "http://h/" ["http://h/bad", "http://h/good"] ⟨∅, ∅⟩ =
      ((crawl_links wBadEdge cfgPlain (fun u s => crawl wBadEdge cfgPlain 6 u 1 s)
          "http://h/" ["http://h/good"]
          { (⟨∅, ∅⟩ : CrawlState) with
              visited_urls := insert "http://h/bad" (⟨∅, ∅⟩ : CrawlState).visited_urls }).1,
       ⟨"http://h/bad", 1⟩ ::
         (crawl_links wBadEdge cfgPlain (fun u s => crawl wBadEdge cfgPlain 6 u 1 s)
           "http://h/" ["http://h/good"]
           { (⟨∅, ∅⟩ : CrawlState) with
               visited_urls := insert "http://h/bad" (⟨∅, ∅⟩ : CrawlState).visited_urls }).2) :=
  c8_fetch_error_isolated wBadEdge cfgPlain 5 "http://h/" 0 "http://h/bad"
    ["http://h/good"] ⟨∅, ∅⟩ rfl rfl rfl (by decide) (by decide) rfl

/-- C9.  Each persistence call writes, at `os.path.join(output_dir,
'pdf_links.txt')`, exactly the members of the current discovered set, one
per line, lexicographically sorted with no duplicates, and the previous
file content is discarded (mode `'w'`), so persisting the same set twice
yields byte-identical content. -/
theorem c9_persist_sorted_full_set (output_dir : String) (s : Finset String)
    (old old' : Option String) :
    List.Sorted (fun a b => a ≤ b) (written_links s) ∧
    (written_links s).Nodup ∧
    (∀ u : String, u ∈ written_links s ↔ u ∈ s) ∧
    save_intermediate_results output_dir s old =
      (os_path_join output_dir "pdf_links.txt",
       some (String.join ((written_links s).map (fun link => link ++ "\n")))) ∧
    save_intermediate_results output_dir s old = save_intermediate_results output_dir s old' ∧
    save_results output_dir s old = save_results output_dir s old' :=
  ⟨Finset.sort_sorted _ _, Finset.sort_nodup _ _, fun _ => Finset.mem_sort _,
   rfl, rfl, rfl⟩

/-- C10.  For every output directory, discovered set and previous file
content, the checkpoint writer and the final writer write the same path and
the same content: they differ only in logging. -/
theorem c10_savers_agree (output_dir : String) (s : Finset String)
    (old : Option String) :
    save_intermediate_results output_dir s old = save_results output_dir s old :=
  rfl
